import Mathlib

/-!
Verification of the oversampling-factor computation of
`Libs/vtkSegmentationCore/vtkCalculateOversamplingFactor.cxx`.

The C++ code is shallowly embedded over exact rationals.  A piecewise-linear
membership function (`vtkPiecewiseFunction`) is embedded as a list of
`(x, degree)` nodes kept sorted by strictly increasing `x`; `AddPoint`
replaces a node already present at the same `x`, which is the behaviour of
`vtkPiecewiseFunction::AddPoint`.  The boolean component returned by the
fallible operations records whether an error/warning was reported through
the VTK diagnostic macros.
-/

/-- `vtkPiecewiseFunction::AddPoint`: insert a node keeping the node list
sorted by `x`; a node already present at the same `x` is replaced. -/
def AddPoint (x y : ℚ) : List (ℚ × ℚ) → List (ℚ × ℚ)
  | [] => [(x, y)]
  | (a, b) :: rest =>
    if x < a then (x, y) :: (a, b) :: rest
    else if x = a then (x, y) :: rest
    else (a, b) :: AddPoint x y rest

/-- `vtkPiecewiseFunction::GetValue` with the default clamping: linear
interpolation between consecutive nodes, flat extrapolation outside the node
range, `0` on an empty function. -/
def GetValue : List (ℚ × ℚ) → ℚ → ℚ
  | [], _ => 0
  | [p], _ => p.2
  | p :: q :: rest, x =>
    if x ≤ p.1 then p.2
    else if x ≤ q.1 then p.2 + (x - p.1) * (q.2 - p.2) / (q.1 - p.1)
    else GetValue (q :: rest) x

/-! Canonical input membership functions (source lines 227-251), built by the
same `AddPoint` calls and in the same order as the source. -/

/-- Input membership function `sizeLarge`. -/
def sizeLarge : List (ℚ × ℚ) := AddPoint 2 0 (AddPoint (1/2) 1 [])

/-- Input membership function `sizeMedium`. -/
def sizeMedium : List (ℚ × ℚ) :=
  AddPoint 3 0 (AddPoint (5/2) 1 (AddPoint 2 1 (AddPoint (1/2) 0 [])))

/-- Input membership function `sizeSmall`. -/
def sizeSmall : List (ℚ × ℚ) :=
  AddPoint (15/4) 0 (AddPoint (13/4) 1 (AddPoint 3 1 (AddPoint (5/2) 0 [])))

/-- Input membership function `sizeVerySmall`. -/
def sizeVerySmall : List (ℚ × ℚ) := AddPoint (15/4) 1 (AddPoint (13/4) 0 [])

/-- Input membership function `complexityLow`. -/
def complexityLow : List (ℚ × ℚ) := AddPoint (3/5) 0 (AddPoint (1/5) 1 [])

/-- Input membership function `complexityHigh`. -/
def complexityHigh : List (ℚ × ℚ) := AddPoint (3/5) 1 (AddPoint (1/5) 0 [])

/-! Canonical output membership functions (source lines 253-272); the
oversampling factor is two to the power of the defuzzified output value. -/

/-- Output membership function `oversamplingLow`. -/
def oversamplingLow : List (ℚ × ℚ) :=
  AddPoint (1/4) 0 (AddPoint (-3/4) 1 (AddPoint (-5/4) 1 []))

/-- Output membership function `oversamplingNormal` (the source adds the
point `(0.25, 1)` twice; the second call replaces the first node). -/
def oversamplingNormal : List (ℚ × ℚ) :=
  AddPoint (3/4) 0 (AddPoint (1/4) 1 (AddPoint (1/4) 1 (AddPoint (-3/4) 0 [])))

/-- Output membership function `oversamplingHigh`. -/
def oversamplingHigh : List (ℚ × ℚ) :=
  AddPoint (7/4) 0 (AddPoint (5/4) 1 (AddPoint (3/4) 1 (AddPoint (1/4) 0 [])))

/-- Output membership function `oversamplingVeryHigh`. -/
def oversamplingVeryHigh : List (ℚ × ℚ) :=
  AddPoint (9/4) 1 (AddPoint (7/4) 1 (AddPoint (5/4) 0 []))

/-- `vtkCalculateOversamplingFactor::ClipMembershipFunction` (source lines
394-436): if the clip value is at least one nothing happens; otherwise the
crossing parameters strictly between nodes straddling the clip value are
collected, every node above the clip value is pulled down to it, and a new
node is added at each collected crossing. -/
def ClipMembershipFunction (membershipFunction : List (ℚ × ℚ)) (clipValue : ℚ) :
    List (ℚ × ℚ) :=
  if 1 ≤ clipValue then membershipFunction
  else
    let newNodeParameterValues : List ℚ :=
      (membershipFunction.zip membershipFunction.tail).filterMap fun pr =>
        let currentNode := pr.1
        let nextNode := pr.2
        if (currentNode.2 < clipValue ∧ clipValue < nextNode.2)
            ∨ (clipValue < currentNode.2 ∧ nextNode.2 < clipValue) then
          some ((((nextNode.1 - currentNode.1) * (currentNode.2 - clipValue))
            / (currentNode.2 - nextNode.2)) + currentNode.1)
        else none
    let lowered := membershipFunction.map fun node =>
      if clipValue < node.2 then (node.1, clipValue) else node
    newNodeParameterValues.foldl (fun f x => AddPoint x clipValue f) lowered

/-- Trapezoid decomposition of one clipped consequent (source lines 336-374):
each consecutive node pair yields a bottom rectangle plus a top triangle;
only segments of strictly positive area are retained, each paired with its
centroid. -/
def areaCentroidPairsOf (membershipFunction : List (ℚ × ℚ)) : List (ℚ × ℚ) :=
  (membershipFunction.zip membershipFunction.tail).filterMap fun pr =>
    let currentNode := pr.1
    let nextNode := pr.2
    let bottomRectangleArea := (nextNode.1 - currentNode.1) * min nextNode.2 currentNode.2
    let bottomRectangleCentroid := (nextNode.1 + currentNode.1) / 2
    let topTriangleArea :=
      if currentNode.2 < nextNode.2 then
        (nextNode.1 - currentNode.1) * (nextNode.2 - currentNode.2) / 2
      else if nextNode.2 < currentNode.2 then
        (nextNode.1 - currentNode.1) * (currentNode.2 - nextNode.2) / 2
      else 0
    let topTriangleCentroid :=
      if currentNode.2 < nextNode.2 then currentNode.1 + (nextNode.1 - currentNode.1) * 2 / 3
      else if nextNode.2 < currentNode.2 then currentNode.1 + (nextNode.1 - currentNode.1) / 3
      else 0
    let trapezoidArea := bottomRectangleArea + topTriangleArea
    let trapezoidCentroid :=
      if 0 < topTriangleArea then
        ((bottomRectangleArea * bottomRectangleCentroid)
          + (topTriangleArea * topTriangleCentroid))
          / (bottomRectangleArea + topTriangleArea)
      else bottomRectangleCentroid
    if 0 < trapezoidArea then some (trapezoidArea, trapezoidCentroid) else none

/-- Rule evaluation and consequent clipping of
`vtkCalculateOversamplingFactor::DetermineOversamplingFactor` (source lines
274-329): fuzzify both inputs, compute the six rule strengths, and clip a
private copy of each rule's consequent output function by its strength, in
the fixed source order. -/
def consequentsOf (relativeStructureSize complexityMeasure : ℚ) :
    List (List (ℚ × ℚ)) :=
  let sizeLargeMembership := GetValue sizeLarge relativeStructureSize
  let sizeMediumMembership := GetValue sizeMedium relativeStructureSize
  let sizeSmallMembership := GetValue sizeSmall relativeStructureSize
  let sizeVerySmallMembership := GetValue sizeVerySmall relativeStructureSize
  let complexityLowMembership := GetValue complexityLow complexityMeasure
  let complexityHighMembership := GetValue complexityHigh complexityMeasure
  let rule1 := sizeVerySmallMembership
  let rule2 := min sizeSmallMembership complexityHighMembership
  let rule3 := min sizeMediumMembership complexityHighMembership
  let rule4 := min sizeSmallMembership complexityLowMembership
  let rule5 := min sizeMediumMembership complexityLowMembership
  let rule6 := sizeLargeMembership
  [ClipMembershipFunction oversamplingVeryHigh rule1,
   ClipMembershipFunction oversamplingHigh rule2,
   ClipMembershipFunction oversamplingHigh rule3,
   ClipMembershipFunction oversamplingNormal rule4,
   ClipMembershipFunction oversamplingNormal rule5,
   ClipMembershipFunction oversamplingLow rule6]

/-- `vtkCalculateOversamplingFactor::DetermineOversamplingFactor` (source
lines 219-391).  The boolean records whether the invalid-measure error was
reported; on sentinel inputs the neutral factor `1` is returned.  Otherwise
the retained trapezoid segments of the six clipped consequents are
aggregated, the combined centre of mass is rounded to the nearest integer
power, and the factor `2 ^ power` is returned. -/
def DetermineOversamplingFactor (relativeStructureSize complexityMeasure : ℚ) :
    ℚ × Bool :=
  if relativeStructureSize = -1 ∨ complexityMeasure = -1 then (1, true)
  else
    let pairs :=
      ((consequentsOf relativeStructureSize complexityMeasure).map
        areaCentroidPairsOf).flatten
    let nominator := pairs.foldl (fun acc pr => acc + pr.1 * pr.2) 0
    let denominator := pairs.foldl (fun acc pr => acc + pr.1) 0
    let centerOfMass := nominator / denominator
    let calculatedOversamplingFactorPower : ℤ := ⌊centerOfMass + 1/2⌋
    ((2 : ℚ) ^ calculatedOversamplingFactorPower, false)

/-! Spec-side description of the rule table, used to state the refinement
claim about rule evaluation: the six antecedent strengths in rule order and
the six consequent output functions in rule order. -/

/-- The six rule strengths in the spec's fixed rule order. -/
def ruleStrengths (relativeStructureSize complexityMeasure : ℚ) : List ℚ :=
  [GetValue sizeVerySmall relativeStructureSize,
   min (GetValue sizeSmall relativeStructureSize) (GetValue complexityHigh complexityMeasure),
   min (GetValue sizeMedium relativeStructureSize) (GetValue complexityHigh complexityMeasure),
   min (GetValue sizeSmall relativeStructureSize) (GetValue complexityLow complexityMeasure),
   min (GetValue sizeMedium relativeStructureSize) (GetValue complexityLow complexityMeasure),
   GetValue sizeLarge relativeStructureSize]

/-- The six consequent output functions in the spec's fixed rule order. -/
def ruleConsequents : List (List (ℚ × ℚ)) :=
  [oversamplingVeryHigh, oversamplingHigh, oversamplingHigh,
   oversamplingNormal, oversamplingNormal, oversamplingLow]

/-- Grid Geometry record (the spec's data model for `vtkOrientedImageData`,
which lives outside this repository): integer extent given as a
(min, max) pair per axis, spacing and origin per axis, and a 3x3
image-to-world direction matrix. -/
structure GridGeometry where
  extent : Fin 3 → ℤ × ℤ
  spacing : Fin 3 → ℚ
  origin : Fin 3 → ℚ
  directions : Fin 3 → Fin 3 → ℚ

/-- Modelled from the spec: `vtkOrientedImageData::GetImageToWorldMatrix`
composed with `vtkMatrix4x4::MultiplyPoint` (both outside this repository's
sources) — the image-to-world transform of a homogeneous image-space point
scales each axis by the current spacing, rotates by the direction matrix and
translates by the origin. -/
def imageToWorldPoint (directions : Fin 3 → Fin 3 → ℚ) (spacing : Fin 3 → ℚ)
    (origin : Fin 3 → ℚ) (v : Fin 3 → ℚ) : Fin 3 → ℚ := fun i =>
  directions i 0 * spacing 0 * v 0 + directions i 1 * spacing 1 * v 1
    + directions i 2 * spacing 2 * v 2 + origin i

/-- `vtkCalculateOversamplingFactor::ApplyOversamplingOnImageGeometry`
(source lines 439-491).  A null grid returns immediately.  A factor outside
[0.01, 100] only emits a warning (second component `true`).  Otherwise, for
a factor different from 1, extent and spacing are scaled per axis and the
origin is shifted by a half-voxel spacing-ratio difference transformed to
world space; the image-to-world matrix is read after the new spacing is set,
so the transform uses the new spacing and the old origin. -/
def ApplyOversamplingOnImageGeometry (imageData : Option GridGeometry)
    (oversamplingFactor : ℚ) : Option GridGeometry × Bool :=
  match imageData with
  | none => (none, false)
  | some g =>
    if oversamplingFactor < 1/100 ∨ 100 < oversamplingFactor then (some g, true)
    else if oversamplingFactor ≠ 1 then
      let newExtent : Fin 3 → ℤ × ℤ := fun axis =>
        let dimension : ℤ := (g.extent axis).2 - (g.extent axis).1 + 1
        let extentMin : ℤ := ⌈oversamplingFactor * ((g.extent axis).1 : ℚ)⌉
        let extentMax : ℤ := extentMin + ⌊oversamplingFactor * (dimension : ℚ)⌋ - 1
        (extentMin, extentMax)
      let newSpacing : Fin 3 → ℚ := fun axis =>
        g.spacing axis * (((g.extent axis).2 - (g.extent axis).1 + 1 : ℤ) : ℚ)
          / (((newExtent axis).2 - (newExtent axis).1 + 1 : ℤ) : ℚ)
      let newOriginImage : Fin 3 → ℚ := fun axis =>
        1/2 * (1 - g.spacing axis / newSpacing axis)
      let newOrigin := imageToWorldPoint g.directions newSpacing g.origin newOriginImage
      (some { extent := newExtent, spacing := newSpacing, origin := newOrigin,
              directions := g.directions }, false)
    else (some g, false)

/-- Volume sanity check of
`vtkCalculateOversamplingFactor::CalculateRelativeStructureSize` (source
lines 158-164): the debug diagnostic fires when the signed difference
between the computed volume and the projected volume, multiplied by 10000,
exceeds the volume. -/
def volumeSanityCheckFires (structureVolume structureProjectedVolume : ℚ) : Bool :=
  decide ((structureVolume - structureProjectedVolume) * 10000 > structureVolume)

/-- `vtkCalculateOversamplingFactor::CalculateRelativeStructureSize` (source
lines 137-180) with its external inputs supplied as values: the mass
properties of the mesh (volume and projected volume) and the reference
geometry (dimensions and spacing).  Returns whether the numerical-quality
diagnostic fired together with the size measure
`-log10(structureVolume / referenceVolume)`. -/
noncomputable def CalculateRelativeStructureSize (structureVolume structureProjectedVolume : ℚ)
    (dimensions : Fin 3 → ℤ) (spacing : Fin 3 → ℚ) : Bool × ℝ :=
  let diagnostic := volumeSanityCheckFires structureVolume structureProjectedVolume
  let volumeVolume : ℚ := ((dimensions 0 * dimensions 1 * dimensions 2 : ℤ) : ℚ)
    * (spacing 0 * spacing 1 * spacing 2)
  let relativeStructureSize : ℚ := structureVolume / volumeVolume
  (diagnostic, -Real.logb 10 (relativeStructureSize : ℝ))

/-- A concrete reference grid: extent `[0, 9]` (10 voxels), unit spacing,
zero origin, identity orientation, on every axis. -/
def sampleGrid : GridGeometry where
  extent := fun _ => (0, 9)
  spacing := fun _ => 1
  origin := fun _ => 0
  directions := fun i j => if i = j then 1 else 0

/-- Every node of `AddPoint x y l` is either the inserted node or a node of
`l`. -/
theorem mem_addPoint (x y : ℚ) (l : List (ℚ × ℚ)) (p : ℚ × ℚ)
    (h : p ∈ AddPoint x y l) : p = (x, y) ∨ p ∈ l := by
  induction l with
  | nil =>
    simp only [AddPoint, List.mem_singleton] at h
    exact Or.inl h
  | cons a rest ih =>
    obtain ⟨a1, a2⟩ := a
    simp only [AddPoint] at h
    split_ifs at h with h1 h2
    · exact List.mem_cons.mp h
    · rcases List.mem_cons.mp h with h3 | h3
      · exact Or.inl h3
      · exact Or.inr (List.mem_cons_of_mem _ h3)
    · rcases List.mem_cons.mp h with h3 | h3
      · exact Or.inr (h3 ▸ List.mem_cons_self _ _)
      · rcases ih h3 with h4 | h4
        · exact Or.inl h4
        · exact Or.inr (List.mem_cons_of_mem _ h4)

/-- Every node of a fold of `AddPoint` insertions at a common degree `c` is
either a node of the start list or has degree `c`. -/
theorem mem_foldl_addPoint (c : ℚ) (xs : List ℚ) (l : List (ℚ × ℚ)) (p : ℚ × ℚ)
    (h : p ∈ xs.foldl (fun f x => AddPoint x c f) l) : p.2 = c ∨ p ∈ l := by
  induction xs generalizing l with
  | nil => exact Or.inr h
  | cons x xs ih =>
    rcases ih (AddPoint x c l) h with h1 | h1
    · exact Or.inl h1
    · rcases mem_addPoint x c l p h1 with h2 | h2
      · exact Or.inl (by rw [h2])
      · exact Or.inr h2

/-- Clipping at a value of at least one leaves the function unmodified. -/
theorem clip_of_one_le (f : List (ℚ × ℚ)) (s : ℚ) (hs : 1 ≤ s) :
    ClipMembershipFunction f s = f := by
  unfold ClipMembershipFunction
  rw [if_pos hs]

/-- After clipping below one, every node degree is at most the clip value. -/
theorem clip_degree_le (f : List (ℚ × ℚ)) (s : ℚ) (hs : s < 1)
    (p : ℚ × ℚ) (hp : p ∈ ClipMembershipFunction f s) : p.2 ≤ s := by
  unfold ClipMembershipFunction at hp
  rw [if_neg (not_le.mpr hs)] at hp
  rcases mem_foldl_addPoint s _ _ p hp with h | h
  · exact le_of_eq h
  · rcases List.mem_map.mp h with ⟨q, hq, rfl⟩
    split_ifs with hlt
    · exact le_rfl
    · exact not_lt.mp hlt

/-- `AddPoint` preserves strictly increasing node parameters. -/
theorem pairwise_addPoint (x y : ℚ) (l : List (ℚ × ℚ))
    (h : l.Pairwise fun p q => p.1 < q.1) :
    (AddPoint x y l).Pairwise fun p q => p.1 < q.1 := by
  induction l with
  | nil => simp [AddPoint]
  | cons a rest ih =>
    obtain ⟨a1, a2⟩ := a
    obtain ⟨ha, hrest⟩ := List.pairwise_cons.mp h
    simp only [AddPoint]
    split_ifs with h1 h2
    · refine List.Pairwise.cons ?_ h
      intro q hq
      rcases List.mem_cons.mp hq with rfl | hq2
      · exact h1
      · exact lt_trans h1 (ha q hq2)
    · refine List.Pairwise.cons ?_ hrest
      intro q hq
      rw [show ((x, y) : ℚ × ℚ).1 = a1 from h2]
      exact ha q hq
    · refine List.Pairwise.cons ?_ (ih hrest)
      intro q hq
      rcases mem_addPoint x y rest q hq with rfl | hq2
      · exact lt_of_le_of_ne (not_lt.mp h1) fun e => h2 e.symm
      · exact ha q hq2

/-- Folding `AddPoint` insertions preserves strictly increasing node
parameters. -/
theorem pairwise_foldl_addPoint (c : ℚ) (xs : List ℚ) (l : List (ℚ × ℚ))
    (h : l.Pairwise fun p q => p.1 < q.1) :
    (xs.foldl (fun f x => AddPoint x c f) l).Pairwise fun p q => p.1 < q.1 := by
  induction xs generalizing l with
  | nil => exact h
  | cons x xs ih => exact ih (AddPoint x c l) (pairwise_addPoint x c l h)

/-- Clipping preserves strictly increasing node parameters. -/
theorem pairwise_clip (f : List (ℚ × ℚ)) (s : ℚ)
    (h : f.Pairwise fun p q => p.1 < q.1) :
    (ClipMembershipFunction f s).Pairwise fun p q => p.1 < q.1 := by
  unfold ClipMembershipFunction
  split_ifs with h1
  · exact h
  · refine pairwise_foldl_addPoint _ _ _ (List.Pairwise.map _ ?_ h)
    intro a b hab
    dsimp only
    split_ifs <;> exact hab

/-- A list maps to itself under a function fixing all its members. -/
theorem map_eq_self_of_mem (l : List (ℚ × ℚ)) (fn : ℚ × ℚ → ℚ × ℚ)
    (h : ∀ a ∈ l, fn a = a) : l.map fn = l := by
  induction l with
  | nil => rfl
  | cons a rest ih =>
    rw [List.map_cons, h a (List.mem_cons_self _ _),
      ih fun b hb => h b (List.mem_cons_of_mem _ hb)]

/-- Clipping a function whose node degrees already lie below the clip value
changes nothing: no segment strictly straddles the clip value, so no node is
inserted, and no node is lowered. -/
theorem clip_eq_self_of_degrees_le (g : List (ℚ × ℚ)) (t : ℚ)
    (hle : ∀ p ∈ g, p.2 ≤ t) : ClipMembershipFunction g t = g := by
  by_cases ht : 1 ≤ t
  · exact clip_of_one_le g t ht
  · unfold ClipMembershipFunction
    rw [if_neg ht]
    have hcross : ∀ pr ∈ g.zip g.tail,
        ¬((pr.1.2 < t ∧ t < pr.2.2) ∨ (t < pr.1.2 ∧ pr.2.2 < t)) := by
      intro pr hpr
      obtain ⟨c, n⟩ := pr
      obtain ⟨hc, hn⟩ := List.of_mem_zip hpr
      rintro (⟨-, hB⟩ | ⟨hA, -⟩)
      · exact absurd hB (not_lt.mpr (hle n (List.mem_of_mem_tail hn)))
      · exact absurd hA (not_lt.mpr (hle c hc))
    have hnil : (g.zip g.tail).filterMap (fun pr =>
        if (pr.1.2 < t ∧ t < pr.2.2) ∨ (t < pr.1.2 ∧ pr.2.2 < t) then
          some ((((pr.2.1 - pr.1.1) * (pr.1.2 - t)) / (pr.1.2 - pr.2.2)) + pr.1.1)
        else none) = [] := by
      rw [List.filterMap_eq_nil_iff]
      intro pr hpr
      rw [if_neg (hcross pr hpr)]
    have hmap : (g.map fun node => if t < node.2 then (node.1, t) else node) = g :=
      map_eq_self_of_mem g _ fun a ha => if_neg (not_lt.mpr (hle a ha))
    dsimp only
    rw [hnil, List.foldl_nil, hmap]

/-- Claim C2: for every pair of inputs, the rule-evaluation stage produces
exactly the six consequents of the spec's rule table, in fixed order and
with no short-circuit: each consequent output function of `ruleConsequents`
is clipped by the matching antecedent strength of `ruleStrengths`. -/
theorem consequentsOf_follows_rule_table (relativeStructureSize complexityMeasure : ℚ) :
    consequentsOf relativeStructureSize complexityMeasure
      = List.zipWith ClipMembershipFunction ruleConsequents
          (ruleStrengths relativeStructureSize complexityMeasure)
    ∧ (ruleStrengths relativeStructureSize complexityMeasure).length = 6 :=
  ⟨rfl, rfl⟩

/-- Claim C2 witness: the rule-table refinement evaluated at the concrete
input pair (4, 1/10). -/
theorem consequentsOf_follows_rule_table_witness :
    consequentsOf 4 (1/10)
      = List.zipWith ClipMembershipFunction ruleConsequents (ruleStrengths 4 (1/10))
    ∧ (ruleStrengths 4 (1/10)).length = 6 :=
  consequentsOf_follows_rule_table 4 (1/10)

/-- Claim C3: at sizeMeasure 4 and complexityMeasure 1/10 only rule 1 fires,
at strength 1, its consequent `oversamplingVeryHigh` is left unclipped, and
the computed oversampling factor is exactly 4 = 2 ^ 2. -/
theorem determine_factor_very_small_scenario :
    ruleStrengths 4 (1/10) = [1, 0, 0, 0, 0, 0]
    ∧ ClipMembershipFunction oversamplingVeryHigh 1 = oversamplingVeryHigh
    ∧ (DetermineOversamplingFactor 4 (1/10)).1 = 4 := by
  refine ⟨?_, ?_, ?_⟩
  · norm_num [ruleStrengths, sizeVerySmall, sizeSmall, sizeMedium, sizeLarge,
      complexityLow, complexityHigh, AddPoint, GetValue]
  · norm_num [ClipMembershipFunction]
  · norm_num [DetermineOversamplingFactor, consequentsOf, ClipMembershipFunction,
      areaCentroidPairsOf, sizeVerySmall, sizeSmall, sizeMedium, sizeLarge,
      complexityLow, complexityHigh, oversamplingVeryHigh, oversamplingHigh,
      oversamplingNormal, oversamplingLow, AddPoint, GetValue,
      List.filterMap_cons, min_def]

/-- Claim C8: whenever either crisp measure equals the sentinel failure
value -1, `DetermineOversamplingFactor` reports an error and returns the
neutral factor 1. -/
theorem determine_factor_sentinel_inputs (relativeStructureSize complexityMeasure : ℚ)
    (h : relativeStructureSize = -1 ∨ complexityMeasure = -1) :
    DetermineOversamplingFactor relativeStructureSize complexityMeasure = (1, true) := by
  unfold DetermineOversamplingFactor
  rw [if_pos h]

/-- Claim C8 witness: the sentinel size measure -1 with complexity measure
1/2 yields the neutral factor and the reported error. -/
theorem determine_factor_sentinel_inputs_witness :
    ((-1 : ℚ) = -1 ∨ (1/2 : ℚ) = -1)
    ∧ DetermineOversamplingFactor (-1) (1/2) = (1, true) :=
  ⟨Or.inl rfl, determine_factor_sentinel_inputs (-1) (1/2) (Or.inl rfl)⟩

/-- Claim C10: a null grid pointer makes `ApplyOversamplingOnImageGeometry`
return immediately, for every factor, with no diagnostic emitted. -/
theorem apply_oversampling_null_grid (oversamplingFactor : ℚ) :
    ApplyOversamplingOnImageGeometry none oversamplingFactor = (none, false) := rfl

/-- Claim C7: a factor of exactly 1 is a silent no-op, and a factor outside
[1/100, 100] emits the diagnostic but leaves the grid untouched. -/
theorem apply_oversampling_noop_cases (g : GridGeometry) (oversamplingFactor : ℚ) :
    (oversamplingFactor = 1 →
      ApplyOversamplingOnImageGeometry (some g) oversamplingFactor = (some g, false))
    ∧ (oversamplingFactor < 1/100 ∨ 100 < oversamplingFactor →
      ApplyOversamplingOnImageGeometry (some g) oversamplingFactor = (some g, true)) := by
  constructor
  · intro h
    subst h
    simp only [ApplyOversamplingOnImageGeometry]
    rw [if_neg (by norm_num : ¬((1 : ℚ) < 1/100 ∨ 100 < (1 : ℚ))),
      if_neg (not_not_intro (rfl : (1 : ℚ) = 1))]
  · intro h
    simp only [ApplyOversamplingOnImageGeometry]
    rw [if_pos h]

/-- Claim C7 witness: factor 1 is a silent no-op on the sample grid and
factor 150 warns without altering it. -/
theorem apply_oversampling_noop_cases_witness :
    ApplyOversamplingOnImageGeometry (some sampleGrid) 1 = (some sampleGrid, false)
    ∧ ApplyOversamplingOnImageGeometry (some sampleGrid) 150 = (some sampleGrid, true) :=
  ⟨(apply_oversampling_noop_cases sampleGrid 1).1 rfl,
   (apply_oversampling_noop_cases sampleGrid 150).2 (Or.inr (by norm_num))⟩

/-- Claim C6: for a factor inside [1/100, 100] and different from 1, the new
extent minimum of each axis is the ceiling of factor times the old minimum,
the new maximum is the new minimum plus the floor of factor times the old
dimension, minus one, and the new spacing is the old spacing times the old
dimension over the new dimension. -/
theorem apply_oversampling_scales_extent_and_spacing (g : GridGeometry)
    (oversamplingFactor : ℚ) (h1 : 1/100 ≤ oversamplingFactor)
    (h2 : oversamplingFactor ≤ 100) (h3 : oversamplingFactor ≠ 1) (axis : Fin 3) :
    ((ApplyOversamplingOnImageGeometry (some g) oversamplingFactor).1).isSome = true
    ∧ ∀ g2, (ApplyOversamplingOnImageGeometry (some g) oversamplingFactor).1 = some g2 →
      (g2.extent axis).1 = ⌈oversamplingFactor * ((g.extent axis).1 : ℚ)⌉
      ∧ (g2.extent axis).2 = (g2.extent axis).1
          + ⌊oversamplingFactor * (((g.extent axis).2 - (g.extent axis).1 + 1 : ℤ) : ℚ)⌋ - 1
      ∧ g2.spacing axis = g.spacing axis
          * (((g.extent axis).2 - (g.extent axis).1 + 1 : ℤ) : ℚ)
          / (((g2.extent axis).2 - (g2.extent axis).1 + 1 : ℤ) : ℚ) := by
  have hcond : ¬(oversamplingFactor < 1/100 ∨ 100 < oversamplingFactor) := by
    push_neg
    exact ⟨h1, h2⟩
  constructor
  · simp only [ApplyOversamplingOnImageGeometry]
    rw [if_neg hcond, if_pos h3]
    rfl
  · intro g2 hg2
    simp only [ApplyOversamplingOnImageGeometry] at hg2
    rw [if_neg hcond, if_pos h3] at hg2
    obtain rfl : _ = g2 := Option.some.inj hg2
    exact ⟨rfl, rfl, rfl⟩

/-- Claim C6 witness: factor 2 on the sample grid (axis 0: extent `[0, 9]`,
spacing 1) yields extent `[0, 19]` — a 20-voxel extent — and spacing 1/2. -/
theorem apply_oversampling_scales_extent_and_spacing_witness :
    ∃ g2, (ApplyOversamplingOnImageGeometry (some sampleGrid) 2).1 = some g2
      ∧ (g2.extent 0).1 = 0
      ∧ (g2.extent 0).2 = 19
      ∧ (g2.extent 0).2 - (g2.extent 0).1 + 1 = 20
      ∧ g2.spacing 0 = 1/2 := by
  obtain ⟨hsome, hall⟩ :=
    apply_oversampling_scales_extent_and_spacing sampleGrid 2
      (by norm_num) (by norm_num) (by norm_num) 0
  obtain ⟨g2, hg⟩ := Option.isSome_iff_exists.mp hsome
  obtain ⟨e1, e2, e3⟩ := hall g2 hg
  have h1 : (g2.extent 0).1 = 0 := by
    rw [e1]
    norm_num [sampleGrid]
  have h2 : (g2.extent 0).2 = 19 := by
    rw [e2, h1]
    norm_num [sampleGrid]
  refine ⟨g2, hg, h1, h2, by rw [h1, h2]; norm_num, ?_⟩
  rw [e3, h1, h2]
  norm_num [sampleGrid]

/-- Claim C9 counterexample: with volume 1 and projected volume 2 the
absolute discrepancy times 10000 exceeds the volume, yet the code's signed
comparison does not fire the diagnostic. -/
theorem volume_sanity_check_needs_signed_difference :
    (CalculateRelativeStructureSize 1 2 (fun _ => 1) (fun _ => 1)).1 = false
    ∧ |(1 : ℚ) - 2| * 10000 > 1 := by
  constructor
  · simp only [CalculateRelativeStructureSize, volumeSanityCheckFires,
      decide_eq_false_iff_not]
    norm_num
  · norm_num

/-- Claim C9 amended: the numerical-quality diagnostic of
`CalculateRelativeStructureSize` fires exactly when the signed difference
between volume and projected volume times 10000 exceeds the volume, and the
returned size measure does not depend on the projected volume (so the
diagnostic is non-fatal and leaves the result unaffected). -/
theorem volume_sanity_check_condition_and_result (structureVolume structureProjectedVolume : ℚ)
    (dimensions : Fin 3 → ℤ) (spacing : Fin 3 → ℚ) :
    ((CalculateRelativeStructureSize structureVolume structureProjectedVolume
        dimensions spacing).1 = true
      ↔ (structureVolume - structureProjectedVolume) * 10000 > structureVolume)
    ∧ ∀ otherProjectedVolume,
      (CalculateRelativeStructureSize structureVolume structureProjectedVolume
        dimensions spacing).2
      = (CalculateRelativeStructureSize structureVolume otherProjectedVolume
        dimensions spacing).2 := by
  constructor
  · simp [CalculateRelativeStructureSize, volumeSanityCheckFires]
  · intro otherProjectedVolume
    rfl

/-- Claim C4: for each of the six canonical output membership functions of
the rule table and every clip strength in [0, 1], after clipping no node
degree exceeds the strength and the node parameters remain strictly
increasing. -/
theorem clip_bounds_degrees_and_monotone (s : ℚ) (h0 : 0 ≤ s) (h1 : s ≤ 1)
    (f : List (ℚ × ℚ)) (hf : f ∈ ruleConsequents) :
    (∀ p ∈ ClipMembershipFunction f s, p.2 ≤ s)
    ∧ (ClipMembershipFunction f s).Pairwise fun p q => p.1 < q.1 := by
  have hbase : (f.Pairwise fun p q : ℚ × ℚ => p.1 < q.1) ∧ ∀ p ∈ f, p.2 ≤ 1 := by
    simp only [ruleConsequents, List.mem_cons, List.not_mem_nil, or_false] at hf
    rcases hf with rfl | rfl | rfl | rfl | rfl | rfl <;>
      refine ⟨?_, ?_⟩ <;>
      norm_num [oversamplingVeryHigh, oversamplingHigh, oversamplingNormal,
        oversamplingLow, AddPoint, List.pairwise_cons, List.forall_mem_cons]
  constructor
  · intro p hp
    rcases lt_or_ge s 1 with hs | hs
    · exact clip_degree_le f s hs p hp
    · have hs1 : s = 1 := le_antisymm h1 hs
      subst hs1
      rw [clip_of_one_le f 1 le_rfl] at hp
      exact hbase.2 p hp
  · exact pairwise_clip f s hbase.1

/-- Claim C4 witness: clipping `oversamplingHigh` at strength 1/2 keeps all
degrees at or below 1/2 and the node parameters strictly increasing. -/
theorem clip_bounds_degrees_and_monotone_witness :
    (0 : ℚ) ≤ 1/2 ∧ (1/2 : ℚ) ≤ 1
    ∧ (∀ p ∈ ClipMembershipFunction oversamplingHigh (1/2), p.2 ≤ 1/2)
    ∧ (ClipMembershipFunction oversamplingHigh (1/2)).Pairwise fun p q => p.1 < q.1 := by
  obtain ⟨ha, hb⟩ := clip_bounds_degrees_and_monotone (1/2) (by norm_num) (by norm_num)
    oversamplingHigh (by simp [ruleConsequents])
  exact ⟨by norm_num, by norm_num, ha, hb⟩

/-- Claim C5: clipping is idempotent — re-clipping an already-clipped
function at the same or a higher strength changes nothing — and clipping at
any strength of at least one leaves any function unmodified. -/
theorem clip_idempotent_and_identity_above_one :
    (∀ (f : List (ℚ × ℚ)) (s t : ℚ), s ≤ t →
      ClipMembershipFunction (ClipMembershipFunction f s) t = ClipMembershipFunction f s)
    ∧ ∀ (f : List (ℚ × ℚ)) (s : ℚ), 1 ≤ s → ClipMembershipFunction f s = f := by
  refine ⟨?_, clip_of_one_le⟩
  intro f s t hst
  rcases le_or_lt 1 t with ht | ht
  · exact clip_of_one_le _ t ht
  · exact clip_eq_self_of_degrees_le _ t fun p hp =>
      le_trans (clip_degree_le f s (lt_of_le_of_lt hst ht) p hp) hst

/-- Claim C5 witness: re-clipping `oversamplingNormal` clipped at 1/3 with
the higher strength 1/2 is a no-op, and clipping `oversamplingLow` at 3/2 is
the identity. -/
theorem clip_idempotent_and_identity_above_one_witness :
    ((1 : ℚ)/3 ≤ 1/2
      ∧ ClipMembershipFunction (ClipMembershipFunction oversamplingNormal (1/3)) (1/2)
        = ClipMembershipFunction oversamplingNormal (1/3))
    ∧ ((1 : ℚ) ≤ 3/2 ∧ ClipMembershipFunction oversamplingLow (3/2) = oversamplingLow) :=
  ⟨⟨by norm_num,
    clip_idempotent_and_identity_above_one.1 oversamplingNormal (1/3) (1/2) (by norm_num)⟩,
   ⟨by norm_num,
    clip_idempotent_and_identity_above_one.2 oversamplingLow (3/2) (by norm_num)⟩⟩

/-- Literal node list of `sizeLarge`. -/
theorem sizeLarge_nodes : sizeLarge = [(1/2, 1), (2, 0)] := by
  norm_num [sizeLarge, AddPoint]

/-- Literal node list of `sizeMedium`. -/
theorem sizeMedium_nodes : sizeMedium = [(1/2, 0), (2, 1), (5/2, 1), (3, 0)] := by
  norm_num [sizeMedium, AddPoint]

/-- Literal node list of `sizeSmall`. -/
theorem sizeSmall_nodes : sizeSmall = [(5/2, 0), (3, 1), (13/4, 1), (15/4, 0)] := by
  norm_num [sizeSmall, AddPoint]

/-- Literal node list of `sizeVerySmall`. -/
theorem sizeVerySmall_nodes : sizeVerySmall = [(13/4, 0), (15/4, 1)] := by
  norm_num [sizeVerySmall, AddPoint]

/-- Literal node list of `complexityLow`. -/
theorem complexityLow_nodes : complexityLow = [(1/5, 1), (3/5, 0)] := by
  norm_num [complexityLow, AddPoint]

/-- Literal node list of `complexityHigh`. -/
theorem complexityHigh_nodes : complexityHigh = [(1/5, 0), (3/5, 1)] := by
  norm_num [complexityHigh, AddPoint]

/-- The large-size membership degree is positive below 2. -/
theorem sizeLarge_pos (x : ℚ) (h : x < 2) : 0 < GetValue sizeLarge x := by
  rw [sizeLarge_nodes]
  simp only [GetValue]
  split_ifs <;> (try ring_nf) <;> linarith

/-- The medium-size membership degree is positive on [2, 3). -/
theorem sizeMedium_pos (x : ℚ) (h1 : 2 ≤ x) (h2 : x < 3) :
    0 < GetValue sizeMedium x := by
  rw [sizeMedium_nodes]
  simp only [GetValue]
  split_ifs <;> (try ring_nf) <;> linarith

/-- The small-size membership degree is positive on [3, 15/4). -/
theorem sizeSmall_pos (x : ℚ) (h1 : 3 ≤ x) (h2 : x < 15/4) :
    0 < GetValue sizeSmall x := by
  rw [sizeSmall_nodes]
  simp only [GetValue]
  split_ifs <;> (try ring_nf) <;> linarith

/-- The very-small-size membership degree is positive from 15/4 on. -/
theorem sizeVerySmall_pos (x : ℚ) (h : 15/4 ≤ x) :
    0 < GetValue sizeVerySmall x := by
  rw [sizeVerySmall_nodes]
  simp only [GetValue]
  split_ifs <;> (try ring_nf) <;> linarith

/-- The low-complexity membership degree is positive below 3/5. -/
theorem complexityLow_pos (x : ℚ) (h : x < 3/5) : 0 < GetValue complexityLow x := by
  rw [complexityLow_nodes]
  simp only [GetValue]
  split_ifs <;> (try ring_nf) <;> linarith

/-- The high-complexity membership degree is positive above 1/5. -/
theorem complexityHigh_pos (x : ℚ) (h : 1/5 < x) : 0 < GetValue complexityHigh x := by
  rw [complexityHigh_nodes]
  simp only [GetValue]
  split_ifs <;> (try ring_nf) <;> linarith

/-- For every input pair at least one of the six rule strengths is strictly
positive: the size membership functions jointly cover the whole axis, the
two complexity membership functions are never both zero, and rules 1-6 pair
every covering size category with a complexity category (or none).  The
degenerate situation in which no rule fires therefore never occurs. -/
theorem exists_rule_strength_pos (relativeStructureSize complexityMeasure : ℚ) :
    ∃ r ∈ ruleStrengths relativeStructureSize complexityMeasure, 0 < r := by
  have hc : 0 < GetValue complexityLow complexityMeasure
      ∨ 0 < GetValue complexityHigh complexityMeasure := by
    rcases lt_or_ge complexityMeasure (3/5) with h | h
    · exact Or.inl (complexityLow_pos complexityMeasure h)
    · exact Or.inr (complexityHigh_pos complexityMeasure (by linarith))
  rcases lt_or_ge relativeStructureSize 2 with h1 | h1
  · exact ⟨GetValue sizeLarge relativeStructureSize, by simp [ruleStrengths],
      sizeLarge_pos relativeStructureSize h1⟩
  · rcases lt_or_ge relativeStructureSize 3 with h2 | h2
    · rcases hc with hcl | hch
      · exact ⟨min (GetValue sizeMedium relativeStructureSize)
          (GetValue complexityLow complexityMeasure), by simp [ruleStrengths],
          lt_min (sizeMedium_pos relativeStructureSize h1 h2) hcl⟩
      · exact ⟨min (GetValue sizeMedium relativeStructureSize)
          (GetValue complexityHigh complexityMeasure), by simp [ruleStrengths],
          lt_min (sizeMedium_pos relativeStructureSize h1 h2) hch⟩
    · rcases lt_or_ge relativeStructureSize (15/4) with h3 | h3
      · rcases hc with hcl | hch
        · exact ⟨min (GetValue sizeSmall relativeStructureSize)
            (GetValue complexityLow complexityMeasure), by simp [ruleStrengths],
            lt_min (sizeSmall_pos relativeStructureSize h2 h3) hcl⟩
        · exact ⟨min (GetValue sizeSmall relativeStructureSize)
            (GetValue complexityHigh complexityMeasure), by simp [ruleStrengths],
            lt_min (sizeSmall_pos relativeStructureSize h2 h3) hch⟩
      · exact ⟨GetValue sizeVerySmall relativeStructureSize, by simp [ruleStrengths],
          sizeVerySmall_pos relativeStructureSize h3⟩
